import Mathlib

/-!
Verification of the hakoniwa-envsim Python package against its
natural-language specification.

Shallow embedding conventions:
* Python floats are modelled as exact rationals.  Every numeric operation
  exercised by the claims (comparison, min/max, addition, multiplication,
  division, floor division) is exact on the inputs considered, so the
  rational model is faithful to the algorithm; float rounding itself is out
  of scope.
* Python dicts keyed by strings are modelled as association lists looked up
  with List.lookup (keys are unique in every scene the code builds).
* Python list.sort / sorted are stable sorts; they are modelled with
  Mathlib's List.insertionSort, which is stable, using the total order
  "key a <= key b" (for reverse=True, "key b <= key a"), so the modelled
  output list coincides with CPython's.
* Fallible code (raise) is modelled with Except String.
-/

-- Rat.add / Rat.mul / Rat.inv / Rat.sub are shipped irreducible; make them
-- unfold so that concrete rational computations can be settled by decide.
attribute [local semireducible] Rat.add Rat.mul Rat.inv Rat.sub

/-- Decidable equality for Except, so that concrete runs of fallible code
can be checked by decide. -/
instance {ε α : Type} [DecidableEq ε] [DecidableEq α] : DecidableEq (Except ε α) :=
  fun x y =>
    match x, y with
    | .error a, .error b =>
      if h : a = b then .isTrue (by rw [h]) else .isFalse (by simpa using h)
    | .ok a, .ok b =>
      if h : a = b then .isTrue (by rw [h]) else .isFalse (by simpa using h)
    | .error _, .ok _ => .isFalse (by simp)
    | .ok _, .error _ => .isFalse (by simp)

/-! ## fastsearch/builder.py : AABB and BVH construction -/

/-- The six geometric fields of builder.AABB (builder.py lines 6-15).
The id field is split off (see AABB below) so that internal BVH nodes,
whose Python id is the never-read constant -1, need not carry one. -/
structure Box where
  minx : ℚ
  miny : ℚ
  minz : ℚ
  maxx : ℚ
  maxy : ℚ
  maxz : ℚ
deriving DecidableEq, Repr

/-- builder.AABB: an axis-aligned box plus an id.  builder.py declares
id : int but envbuilder.py stores area-id strings in the same field, so the
id type is a parameter. -/
structure AABB (ι : Type) extends Box where
  id : ι
deriving DecidableEq, Repr

/-- builder.merge_aabb on the geometric fields (the merged id is the
constant -1 in Python and is never read anywhere). -/
def merge_aabb (a b : Box) : Box :=
  ⟨min a.minx b.minx, min a.miny b.miny, min a.minz b.minz,
   max a.maxx b.maxx, max a.maxy b.maxy, max a.maxz b.maxz⟩

/-- builder.Node: either a leaf (with ids and the member AABBs) or an inner
node with two children; built trees always have both children present. -/
inductive Node (ι : Type) where
  | leaf (aabb : Box) (ids : List ι) (areas : List (AABB ι))
  | inner (aabb : Box) (left : Node ι) (right : Node ι)
deriving DecidableEq, Repr

/-- The aabb field of a Node. -/
def Node.box {ι : Type} : Node ι → Box
  | .leaf b _ _ => b
  | .inner b _ _ => b

/-- Python min over a nonempty list of keys (head plus tail). -/
def minOver {α : Type} (f : α → ℚ) (a : α) (rest : List α) : ℚ :=
  rest.foldl (fun m b => min m (f b)) (f a)

/-- Python max over a nonempty list of keys (head plus tail). -/
def maxOver {α : Type} (f : α → ℚ) (a : α) (rest : List α) : ℚ :=
  rest.foldl (fun m b => max m (f b)) (f a)

/-- Center coordinate of an AABB on the x axis (builder.py line 54). -/
def centerX {ι : Type} (a : AABB ι) : ℚ := (a.minx + a.maxx) / 2

/-- Center coordinate of an AABB on the y axis. -/
def centerY {ι : Type} (a : AABB ι) : ℚ := (a.miny + a.maxy) / 2

/-- Center coordinate of an AABB on the z axis. -/
def centerZ {ι : Type} (a : AABB ι) : ℚ := (a.minz + a.maxz) / 2

/-- np.argmax over the three center spreads (builder.py lines 54-56):
first axis attaining the maximal spread. -/
def chooseAxis {ι : Type} (a : AABB ι) (rest : List (AABB ι)) : Nat :=
  let sx := maxOver centerX a rest - minOver centerX a rest
  let sy := maxOver centerY a rest - minOver centerY a rest
  let sz := maxOver centerZ a rest - minOver centerZ a rest
  if sy ≤ sx ∧ sz ≤ sx then 0 else if sz ≤ sy then 1 else 2

/-- Sort key for the chosen axis (builder.py lines 59-60): the min
coordinate on that axis. -/
def axisKey {ι : Type} (axis : Nat) (a : AABB ι) : ℚ :=
  match axis with
  | 0 => a.minx
  | 1 => a.miny
  | _ => a.minz

/-- builder.build_bvh, recursion made structural on a fuel argument; fuel
(list length at the top call) strictly exceeds the recursion depth, so the
fuel-exhausted branch is unreachable (build_bvh_core_fuel below). -/
def build_bvh_core {ι : Type} :
    Nat → List (AABB ι) → Nat → Nat → Nat → Except String (Node ι)
  | _, [], _, _, _ => .error "areas is empty"
  | fuel, a :: rest, depth, maxDepth, leafCapacity =>
    if (a :: rest).length ≤ leafCapacity ∨ maxDepth ≤ depth then
      .ok (.leaf
        ⟨minOver (fun b => b.minx) a rest, minOver (fun b => b.miny) a rest,
         minOver (fun b => b.minz) a rest, maxOver (fun b => b.maxx) a rest,
         maxOver (fun b => b.maxy) a rest, maxOver (fun b => b.maxz) a rest⟩
        ((a :: rest).map (fun b => b.id)) (a :: rest))
    else
      match fuel with
      | 0 => .error "fuel exhausted"
      | fuel' + 1 =>
        let ax := chooseAxis a rest
        let sorted :=
          List.insertionSort (fun p q => axisKey ax p ≤ axisKey ax q) (a :: rest)
        let mid := sorted.length / 2
        match build_bvh_core fuel' (sorted.take mid) (depth + 1) maxDepth leafCapacity with
        | .error e => .error e
        | .ok left =>
          match build_bvh_core fuel' (sorted.drop mid) (depth + 1) maxDepth leafCapacity with
          | .error e => .error e
          | .ok right => .ok (.inner (merge_aabb left.box right.box) left right)

/-- builder.build_bvh with the fuel instantiated sufficiently. -/
def build_bvh {ι : Type} (areas : List (AABB ι))
    (depth maxDepth leafCapacity : Nat) : Except String (Node ι) :=
  build_bvh_core areas.length areas depth maxDepth leafCapacity

/-- builder.build_bvh with its Python default arguments
(depth=0, max_depth=5, leaf_capacity=1). -/
def build_bvh_defaults {ι : Type} (areas : List (AABB ι)) : Except String (Node ι) :=
  build_bvh areas 0 5 1

/-! ## fastsearch/search.py -/

/-- search.point_in_aabb: half-open membership test on every axis. -/
def point_in_aabb (b : Box) (x y z : ℚ) : Bool :=
  decide (b.minx ≤ x) && decide (x < b.maxx) &&
  (decide (b.miny ≤ y) && decide (y < b.maxy) &&
   (decide (b.minz ≤ z) && decide (z < b.maxz)))

/-- search.search_point with the found accumulator made explicit (Python
mutates the list in place); the stats counter is dropped (it never affects
the result). -/
def search_point {ι : Type} (node : Node ι) (x y z : ℚ)
    (found : List ι) (precise : Bool) : List ι :=
  if point_in_aabb node.box x y z = false then found
  else
    match node with
    | .leaf _ ids areas =>
      if precise && !areas.isEmpty then
        match areas.find? (fun a => point_in_aabb a.toBox x y z) with
        | some a => found ++ [a.id]
        | none => found
      else found ++ ids
    | .inner _ l r =>
      let lh := point_in_aabb l.box x y z
      let rh := point_in_aabb r.box x y z
      if lh && !rh then search_point l x y z found precise
      else if rh && !lh then search_point r x y z found precise
      else if lh && rh then
        search_point r x y z (search_point l x y z found precise) precise
      else found

/-! ## Geometric side predicates used by the claims -/

/-- A point strictly interior to an AABB: min < coordinate < max on all
three axes (the claim C1 wording). -/
abbrev strictly_interior {ι : Type} (a : AABB ι) (x y z : ℚ) : Prop :=
  a.minx < x ∧ x < a.maxx ∧ a.miny < y ∧ y < a.maxy ∧ a.minz < z ∧ z < a.maxz

/-- Open intervals (lo1,hi1) and (lo2,hi2) are disjoint: separated, or one
of them is empty. -/
abbrev sep_interval (lo1 hi1 lo2 hi2 : ℚ) : Prop :=
  hi1 ≤ lo2 ∨ hi2 ≤ lo1 ∨ hi1 ≤ lo1 ∨ hi2 ≤ lo2

/-- Two AABBs have disjoint interiors: the open boxes are separated along
some axis (or one is degenerate there).  This relation is symmetric and
decidable. -/
abbrev disjoint_interiors {ι : Type} (a b : AABB ι) : Prop :=
  sep_interval a.minx a.maxx b.minx b.maxx ∨
  sep_interval a.miny a.maxy b.miny b.maxy ∨
  sep_interval a.minz a.maxz b.minz b.maxz


/-! ## fastsearch/envbuilder.py : Environment -/

/-- envbuilder.Environment.  The payload type of a property record's props
dict is a parameter (the claims never inspect it).  areas, links and
properties are the three dicts, modelled as association lists; bvh_root is
the tree built from the area AABBs (the from_files file reading is out of
scope; theorems take the build equation as a hypothesis). -/
structure Environment (π : Type) where
  areas : List (String × AABB String)
  links : List (String × String)
  properties : List (String × π)
  bvh_root : Node String

/-- envbuilder.Environment.get_property_for_area: follow the link, then look
the property up; None at either step yields None (the record, when present,
is truthy, so its props dict is returned as-is). -/
def get_property_for_area {π : Type} (env : Environment π) (area_id : String) :
    Option π :=
  match env.links.lookup area_id with
  | none => none
  | some pid => env.properties.lookup pid

/-- envbuilder.Environment.find_area_ids_at: precise BVH search from an
empty accumulator. -/
def find_area_ids_at {π : Type} (env : Environment π) (x y z : ℚ) : List String :=
  search_point env.bvh_root x y z [] true

/-- envbuilder.Environment.find_primary_area_at: first hit if any. -/
def find_primary_area_at {π : Type} (env : Environment π) (x y z : ℚ) :
    Option String :=
  (find_area_ids_at env x y z).head?

/-- envbuilder.Environment.get_property_at. -/
def get_property_at {π : Type} (env : Environment π) (x y z : ℚ) :
    Option String × Option π :=
  match find_primary_area_at env x y z with
  | none => (none, none)
  | some aid => (some aid, get_property_for_area env aid)

/-- Environment.from_files passes max_depth=7, leaf_capacity=1 to build_bvh
(envbuilder.py lines 44-46). -/
def from_files_max_depth : Nat := 7

/-- Environment.from_files default leaf capacity. -/
def from_files_leaf_capacity : Nat := 1

/-! ## creator/zone.py : ZoneEffect -/

/-- A 3-component float vector. -/
abbrev Vec3 : Type := ℚ × ℚ × ℚ

/-- The shape dict of a zone definition: a "circle" key, a "rect" key, or
anything else (ZoneEffect.contains checks the two keys in that order). -/
inductive ZoneShape where
  | circle (center : ℚ × ℚ) (radius : ℚ)
  | rect (center : ℚ × ℚ) (size : ℚ × ℚ)
  | other (desc : String)
deriving DecidableEq, Repr

/-- The wind part of a zone's effect dict, keyed by its mode string.
The vortex and turbulence modes drive the wind through square roots and
random noise (floating point / RNG), which the rational embedding does not
model; Zone.apply returns none for them, and no claim exercises them. -/
inductive WindMode where
  | absolute (wind_ms : Vec3)
  | scale (factor : ℚ)
  | add (add_ms : Vec3)
  | vortex
  | turbulence
  | other (mode : String)
deriving DecidableEq, Repr

/-- A zone's effect dict: the wind mode plus the three optional GPS keys
(zone.py apply_gps reads gps_abs, gps_add, gps_scale independently of the
mode). -/
structure ZoneEffect where
  mode : WindMode
  gps_abs : Option ℚ := none
  gps_add : Option ℚ := none
  gps_scale : Option ℚ := none
deriving DecidableEq, Repr

/-- zone.ZoneEffect: name, shape, effect, priority (default 0). -/
structure Zone where
  name : String
  shape : ZoneShape
  effect : ZoneEffect
  priority : ℚ := 0
deriving DecidableEq, Repr

/-- zone.ZoneEffect.contains / _contains_circle / _contains_rect. -/
def Zone.contains (z : Zone) (pos : Vec3) : Bool :=
  match z.shape with
  | .circle (cx, cy) r =>
    decide ((pos.1 - cx) * (pos.1 - cx) + (pos.2.1 - cy) * (pos.2.1 - cy) ≤ r * r)
  | .rect (cx, cy) (sx, sy) =>
    decide (|pos.1 - cx| ≤ sx / 2) && decide (|pos.2.1 - cy| ≤ sy / 2)
  | .other _ => false

/-- zone.ZoneEffect.apply: dispatch on the mode string; an unknown mode
falls through to the final else and returns the wind unchanged.  none marks
the vortex / turbulence branches, outside the rational model. -/
def Zone.apply (z : Zone) (wind : Vec3) (_pos : Vec3) : Option Vec3 :=
  match z.effect.mode with
  | .absolute w => some w
  | .scale s => some (wind.1 * s, wind.2.1 * s, wind.2.2 * s)
  | .add a => some (wind.1 + a.1, wind.2.1 + a.2.1, wind.2.2 + a.2.2)
  | .vortex => none
  | .turbulence => none
  | .other _ => some wind

/-- zone.ZoneEffect.apply_gps: start from the incoming value, overwrite with
gps_abs if present, then add gps_add if present, then multiply by gps_scale
if present, and clamp into [0,1] (the pos argument is unused in the
source too). -/
def Zone.apply_gps (z : Zone) (base : ℚ) (_pos : Vec3) : ℚ :=
  let g := base
  let g := match z.effect.gps_abs with | some v => v | none => g
  let g := match z.effect.gps_add with | some v => g + v | none => g
  let g := match z.effect.gps_scale with | some v => g * v | none => g
  max 0 (min 1 g)

/-! ## creator/creator.py : CreatorBuilder -/

/-- The base section of environment_model.json, restricted to the vector_ms
wind form (the dir_deg + speed_ms fallback goes through cosine and sine,
which the claims never exercise and the rational embedding does not model). -/
structure EnvBase where
  wind_vector_ms : Vec3
  temperature_C : Option ℚ := none
  pressure_atm : Option ℚ := none
  gps_strength : Option ℚ := none
deriving DecidableEq, Repr

/-- The grid section of environment_model.json. -/
structure EnvGrid where
  extent_m : ℚ × ℚ × ℚ
  cell_m : ℚ × ℚ × ℚ
deriving DecidableEq, Repr

/-- environment_model.json as consumed by CreatorBuilder. -/
structure EnvModel where
  base : EnvBase
  grid : EnvGrid
  zones : List Zone := []
deriving DecidableEq, Repr

/-- The per-area property dict the creator emits. -/
structure BaseProp where
  wind_velocity : Vec3
  temperature : ℚ
  sea_level_atm : ℚ
  gps_strength : ℚ
deriving DecidableEq, Repr

/-- creator.CreatorBuilder.build_base (vector_ms branch): defaults 20.0 C,
1.0 atm, gps 1.0. -/
def build_base (env : EnvModel) : BaseProp :=
  { wind_velocity := env.base.wind_vector_ms,
    temperature := env.base.temperature_C.getD 20,
    sea_level_atm := env.base.pressure_atm.getD 1,
    gps_strength := env.base.gps_strength.getD 1 }

/-- creator.CreatorBuilder.build_grid: nx = int(Ex // dx), ny = int(Ey // dy)
(a zero cell size raises ZeroDivisionError in Python, dx first), then one
area dict per (iy, ix) in row-major order; dz is read but unused.  Each
emitted area is an AABB String whose id is the area_id. -/
def build_grid (extent_x extent_y extent_z dx dy _dz : ℚ) :
    Except String (List (AABB String)) :=
  if dx = 0 then .error "ZeroDivisionError: float floor division by zero"
  else
    let nx : ℤ := ⌊extent_x / dx⌋
    if dy = 0 then .error "ZeroDivisionError: float floor division by zero"
    else
      let ny : ℤ := ⌊extent_y / dy⌋
      .ok ((List.range ny.toNat).flatMap (fun iy : ℕ =>
        (List.range nx.toNat).map (fun ix : ℕ =>
          ⟨⟨(ix : ℚ) * dx, (iy : ℚ) * dy, 0,
            ((ix : ℚ) + 1) * dx, ((iy : ℚ) + 1) * dy, extent_z⟩,
           "area_" ++ toString iy ++ "_" ++ toString ix⟩)))

/-- One entry of the creator's props list: an id and the property dict. -/
structure PropEntry where
  id : String
  properties : BaseProp
deriving DecidableEq, Repr

/-- creator.CreatorBuilder.build_properties: one prop per area, id
"prop_" ++ area_id, each holding a copy of the base property. -/
def build_properties (areas : List (AABB String)) (base_prop : BaseProp) :
    List PropEntry :=
  areas.map (fun a => ⟨"prop_" ++ a.id, base_prop⟩)

/-- creator._cell_center: XY center of a bounds dict. -/
def cell_center (b : Box) : ℚ × ℚ :=
  ((b.minx + b.maxx) * (1/2), (b.miny + b.maxy) * (1/2))

/-- Python sorted(zones, key=priority, reverse=True): stable descending
sort. -/
def sort_zones (zones : List Zone) : List Zone :=
  List.insertionSort (fun a b => b.priority ≤ a.priority) zones

/-- The inner zone loop of creator.CreatorBuilder.apply_zones for one cell:
walk the sorted zones; each zone containing pos updates the wind and then
the gps. -/
def apply_zones_at (zones : List Zone) (pos : Vec3) (wind : Vec3) (gps : ℚ) :
    Option (Vec3 × ℚ) :=
  match zones with
  | [] => some (wind, gps)
  | z :: rest =>
    if z.contains pos then
      match z.apply wind pos with
      | none => none
      | some w => apply_zones_at rest pos w (z.apply_gps gps pos)
    else apply_zones_at rest pos wind gps

/-- creator.CreatorBuilder.apply_zones: no-op when the zone list is empty;
otherwise sort the zones by priority descending and update every prop from
its area's XY center sampled at z=0.  (In the pipeline every prop dict has a
gps_strength key, so the Python .get default 1.0 never fires.) -/
def apply_zones (zone_defs : List Zone) (props : List PropEntry)
    (areas : List (AABB String)) : Option (List PropEntry) :=
  if zone_defs.isEmpty then some props
  else
    let zs := sort_zones zone_defs
    (props.zip areas).mapM (fun pa =>
      let pos : Vec3 := ((cell_center pa.2.toBox).1, (cell_center pa.2.toBox).2, 0)
      match apply_zones_at zs pos pa.1.properties.wind_velocity
          pa.1.properties.gps_strength with
      | none => none
      | some (w, g) =>
        some { pa.1 with properties :=
          { pa.1.properties with wind_velocity := w, gps_strength := g } })

/-- creator.CreatorBuilder.build_links. -/
def build_links (areas : List (AABB String)) : List (String × String) :=
  areas.map (fun a => (a.id, "prop_" ++ a.id))

/-- The creator main pipeline
(build_base, build_grid, build_properties, apply_zones, build_links).
error = a Python exception; ok none = a vortex/turbulence effect was
applied (outside the rational model); ok (some r) = normal output. -/
def compile_scene (env : EnvModel) :
    Except String (Option (List (AABB String) × List PropEntry ×
      List (String × String))) :=
  match build_grid env.grid.extent_m.1 env.grid.extent_m.2.1 env.grid.extent_m.2.2
      env.grid.cell_m.1 env.grid.cell_m.2.1 env.grid.cell_m.2.2 with
  | .error e => .error e
  | .ok areas =>
    match apply_zones env.zones (build_properties areas (build_base env)) areas with
    | none => .ok none
    | some props => .ok (some (areas, props, build_links areas))

/-! ## model/models.py and model/loader.py -/

/-- models.AreaProperty exactly as declared in models.py lines 56-62: the
dataclass has no gps_strength field. -/
structure AreaProperty where
  id : String
  wind_velocity : Vec3
  temperature : ℚ
  sea_level_atm : ℚ
deriving DecidableEq, Repr

/-- The field names of the models.AreaProperty dataclass (models.py). -/
def areaProperty_fields : List String :=
  ["id", "wind_velocity", "temperature", "sea_level_atm"]

/-- The keyword arguments loader.ModelLoader.load_area_properties passes to
the AreaProperty constructor (loader.py lines 65-71); gps_strength is always
passed, with float(p.get("gps_strength", 1.0)). -/
def loader_areaProperty_kwargs : List String :=
  ["id", "wind_velocity", "temperature", "sea_level_atm", "gps_strength"]

/-- A Python dataclass call succeeds only if every keyword argument names a
declared field; otherwise it raises TypeError. -/
def dataclass_call_ok (fields kwargs : List String) : Bool :=
  kwargs.all (fun k => fields.contains k)

/-- One item of property.json's area_properties array as the loader reads
it (gps_strength optional in the JSON). -/
structure PropertyEntryJson where
  id : String
  wind_velocity : Vec3
  temperature : ℚ
  sea_level_atm : ℚ
  gps_strength : Option ℚ := none
deriving DecidableEq, Repr

/-- loader.ModelLoader.load_area_properties: for each entry it calls
AreaProperty(id=..., wind_velocity=..., temperature=..., sea_level_atm=...,
gps_strength=...); the call is modelled through dataclass_call_ok against
the models.py field list. -/
def load_area_properties (entries : List PropertyEntryJson) :
    Except String (List (String × AreaProperty)) :=
  entries.mapM (fun item =>
    if dataclass_call_ok areaProperty_fields loader_areaProperty_kwargs then
      .ok (item.id, ⟨item.id, item.wind_velocity, item.temperature,
        item.sea_level_atm⟩)
    else
      .error "TypeError: AreaProperty.__init__() got an unexpected keyword argument 'gps_strength'")

/-! ## asset/drone_io.py : DroneIO.make_disturbance -/

/-- The Disturbance PDU fields that make_disturbance writes. -/
structure Disturbance where
  d_wind : Vec3
  d_temp : ℚ
  d_atm_sea_level_atm : ℚ
deriving DecidableEq, Repr

/-- The props dict handed to make_disturbance; none in a field covers both
a missing key and an explicit None (identical behavior in the source). -/
structure DroneProps where
  wind_velocity : Option (List ℚ) := none
  temperature : Option ℚ := none
  sea_level_atm : Option ℚ := none
deriving DecidableEq, Repr

/-- drone_io.DroneIO.make_disturbance: zero-initialise, return early when
props is falsy (None or the empty dict, modelled as none); otherwise copy
wind_velocity when it is truthy with length at least 3, then temperature
and sea_level_atm when not None. -/
def make_disturbance (props : Option DroneProps) : Disturbance :=
  let d : Disturbance := ⟨(0, 0, 0), 0, 0⟩
  match props with
  | none => d
  | some p =>
    let d := match p.wind_velocity with
      | some (wx :: wy :: wz :: _) => { d with d_wind := (wx, wy, wz) }
      | _ => d
    let d := match p.temperature with
      | some t => { d with d_temp := t }
      | none => d
    match p.sea_level_atm with
    | some a => { d with d_atm_sea_level_atm := a }
    | none => d

/-! ## Derived observers and concrete scenes used by the claims -/

/-- Whether a node is a leaf. -/
def Node.isLeaf {ι : Type} : Node ι → Bool
  | .leaf _ _ _ => true
  | .inner _ _ _ => false

/-- The member AABBs stored in the leaves of a tree, left to right. -/
def node_areas {ι : Type} : Node ι → List (AABB ι)
  | .leaf _ _ ar => ar
  | .inner _ l r => node_areas l ++ node_areas r

/-- (leaf size, leaf depth) pairs of a tree rooted at the given depth. -/
def leaf_size_depths {ι : Type} : Node ι → Nat → List (Nat × Nat)
  | .leaf _ ids _, d => [(ids.length, d)]
  | .inner _ l r, d => leaf_size_depths l (d + 1) ++ leaf_size_depths r (d + 1)

/-- Componentwise box inclusion (inner inside outer). -/
abbrev box_subset (inner outer : Box) : Prop :=
  outer.minx ≤ inner.minx ∧ inner.maxx ≤ outer.maxx ∧
  outer.miny ≤ inner.miny ∧ inner.maxy ≤ outer.maxy ∧
  outer.minz ≤ inner.minz ∧ inner.maxz ≤ outer.maxz

/-- Closed membership in an area's bounds (the span the compiler emits). -/
abbrev in_closed_box (a : AABB String) (x y z : ℚ) : Prop :=
  a.minx ≤ x ∧ x ≤ a.maxx ∧ a.miny ≤ y ∧ y ≤ a.maxy ∧ a.minz ≤ z ∧ z ≤ a.maxz

/-- The area dict build_grid emits for cell (iy, ix). -/
def gridCell (dx dy Ez : ℚ) (iy ix : ℕ) : AABB String :=
  ⟨⟨(ix : ℚ) * dx, (iy : ℚ) * dy, 0, ((ix : ℚ) + 1) * dx, ((iy : ℚ) + 1) * dy, Ez⟩,
   "area_" ++ toString iy ++ "_" ++ toString ix⟩

/-- 33 input AABBs: 32 disjoint unit boxes along the x axis plus a
duplicate of the last one carrying id 99.  With the default parameters
(max_depth=5, leaf_capacity=1) the two rightmost boxes end up together in
one depth-5 leaf. -/
def dupBoxes33 : List (AABB Int) :=
  ((List.range 32).map (fun i => ⟨⟨(i : ℚ), 0, 0, (i : ℚ) + 1, 1, 1⟩, (i : Int)⟩)) ++
    [⟨⟨31, 0, 0, 32, 1, 1⟩, 99⟩]

/-- Two disjoint unit boxes, a well-behaved input for the completeness
witness. -/
def c1wBoxes : List (AABB Int) :=
  [⟨⟨0, 0, 0, 1, 1, 1⟩, 1⟩, ⟨⟨1, 0, 0, 2, 1, 1⟩, 2⟩]

/-- The tree build_bvh returns on c1wBoxes with default parameters. -/
def c1wTree : Node Int :=
  match build_bvh c1wBoxes 0 5 1 with
  | .ok t => t
  | .error _ => .leaf ⟨0, 0, 0, 0, 0, 0⟩ [] []

/-- A one-area environment with no links and no properties, matching the
spec's property_at(3,3,3) example. -/
def env3 : Environment ℚ :=
  { areas := [("area_0_0", ⟨⟨0, 0, 0, 1, 1, 1⟩, "area_0_0"⟩)],
    links := [],
    properties := [],
    bvh_root :=
      match build_bvh [(⟨⟨0, 0, 0, 1, 1, 1⟩, "area_0_0"⟩ : AABB String)] 0 5 1 with
      | .ok t => t
      | .error _ => .leaf ⟨0, 0, 0, 0, 0, 0⟩ [] [] }

/-- The C5 scenario: base wind [1,0,0], a single-cell grid, and two rect
zones covering the cell, Z1 priority 5 Scale 2 and Z2 priority 10
Add [1,1,0]. -/
def env5 : EnvModel :=
  { base := { wind_vector_ms := (1, 0, 0) },
    grid := { extent_m := (1, 1, 1), cell_m := (1, 1, 1) },
    zones :=
      [{ name := "Z1", shape := .rect (mkRat 1 2, mkRat 1 2) (2, 2),
         effect := { mode := .scale 2 }, priority := 5 },
       { name := "Z2", shape := .rect (mkRat 1 2, mkRat 1 2) (2, 2),
         effect := { mode := .add (1, 1, 0) }, priority := 10 }] }

/-- A scene whose base gps_strength is 1.5 and which has no zones: the
compiler emits it unclamped. -/
def env6 : EnvModel :=
  { base := { wind_vector_ms := (1, 0, 0), gps_strength := some (mkRat 3 2) },
    grid := { extent_m := (1, 1, 1), cell_m := (1, 1, 1) },
    zones := [] }

/-- The C6 zone: gps_add 0.5 and gps_scale 0.5 and no gps_abs. -/
def zone6 : Zone :=
  { name := "G", shape := .rect (0, 0) (2, 2),
    effect := { mode := .other "none", gps_add := some (mkRat 1 2),
                gps_scale := some (mkRat 1 2) } }

/-- A zone whose shape dict has neither a circle nor a rect key. -/
def zoneUnknownShape : Zone :=
  { name := "S", shape := .other "hexagon", effect := { mode := .scale 2 },
    priority := 1 }

/-- A zone whose effect mode string is unknown. -/
def zoneUnknownMode : Zone :=
  { name := "M", shape := .rect (0, 0) (2, 2),
    effect := { mode := .other "windstorm" }, priority := 1 }

/-- A single box for the C9 witness. -/
def c9wBoxes : List (AABB Int) := [⟨⟨0, 0, 0, 1, 1, 1⟩, 7⟩]

/-- The tree build_bvh returns on c9wBoxes with default parameters. -/
def c9wTree : Node Int :=
  match build_bvh c9wBoxes 0 5 1 with
  | .ok t => t
  | .error _ => .inner ⟨0, 0, 0, 0, 0, 0⟩ (.leaf ⟨0, 0, 0, 0, 0, 0⟩ [] [])
      (.leaf ⟨0, 0, 0, 0, 0, 0⟩ [] [])

/-! ## Theorems -/

/-- C4: the point-in-AABB test used both for BVH descent and for leaf
confirmation holds iff min <= coordinate < max on all three axes, and for
two grid cells sharing a face, a point on the seam is contained in exactly
one of them (the right one), the two cells having disjoint interiors. -/
theorem C4_half_open_rule :
    (∀ (b : Box) (x y z : ℚ),
      point_in_aabb b x y z = true ↔
        (b.minx ≤ x ∧ x < b.maxx ∧ b.miny ≤ y ∧ y < b.maxy ∧
         b.minz ≤ z ∧ z < b.maxz)) ∧
    (∀ (c1 c2 : AABB String) (x y z : ℚ),
      c1.maxx = c2.minx →
      c1.miny = c2.miny → c1.maxy = c2.maxy →
      c1.minz = c2.minz → c1.maxz = c2.maxz →
      c2.minx < c2.maxx →
      x = c1.maxx →
      c2.miny ≤ y → y < c2.maxy → c2.minz ≤ z → z < c2.maxz →
      disjoint_interiors c1 c2 ∧
      point_in_aabb c1.toBox x y z = false ∧
      point_in_aabb c2.toBox x y z = true) := by
  constructor
  · intro b x y z
    simp [point_in_aabb, and_assoc]
  · intro c1 c2 x y z hface hy1 hy2 hz1 hz2 hnd hx hylo hyhi hzlo hzhi
    refine ⟨Or.inl ?_, ?_, ?_⟩
    · exact Or.inl (le_of_eq hface)
    · simp [point_in_aabb, hx]
    · simp only [point_in_aabb, Bool.and_eq_true, decide_eq_true_iff]
      rw [hx, hface]
      exact ⟨⟨le_refl _, hnd⟩, ⟨hylo, hyhi⟩, hzlo, hzhi⟩

/-- C4 witness: two adjacent unit cells and the seam point (1, 1/2, 1/2). -/
theorem C4_half_open_rule_witness :
    disjoint_interiors (⟨⟨0,0,0,1,1,1⟩, "area_0_0"⟩ : AABB String)
      (⟨⟨1,0,0,2,1,1⟩, "area_0_1"⟩ : AABB String) ∧
    point_in_aabb (⟨0,0,0,1,1,1⟩ : Box) 1 (mkRat 1 2) (mkRat 1 2) = false ∧
    point_in_aabb (⟨1,0,0,2,1,1⟩ : Box) 1 (mkRat 1 2) (mkRat 1 2) = true :=
  C4_half_open_rule.2 ⟨⟨0,0,0,1,1,1⟩, "area_0_0"⟩ ⟨⟨1,0,0,2,1,1⟩, "area_0_1"⟩
    1 (mkRat 1 2) (mkRat 1 2) (by decide) (by decide) (by decide) (by decide)
    (by decide) (by decide) (by decide) (by decide) (by decide) (by decide)
    (by decide)

/-- C8: make_disturbance zero-fills for an absent or empty props record and
copies wind_velocity, temperature and sea_level_atm when present. -/
theorem C8_make_disturbance :
    make_disturbance none = ⟨(0, 0, 0), 0, 0⟩ ∧
    make_disturbance (some {}) = ⟨(0, 0, 0), 0, 0⟩ ∧
    (∀ (wx wy wz t a : ℚ) (rest : List ℚ),
      make_disturbance (some
        { wind_velocity := some (wx :: wy :: wz :: rest),
          temperature := some t, sea_level_atm := some a }) =
      ⟨(wx, wy, wz), t, a⟩) := by
  refine ⟨rfl, rfl, fun wx wy wz t a rest => rfl⟩

/-- C10: models.AreaProperty has no gps_strength field, but the loader
always passes a gps_strength keyword argument, so load_area_properties
raises TypeError on every non-empty input instead of returning records. -/
theorem C10_loader_type_error :
    dataclass_call_ok areaProperty_fields loader_areaProperty_kwargs = false ∧
    (∀ (e : PropertyEntryJson) (rest : List PropertyEntryJson),
      load_area_properties (e :: rest) =
        .error "TypeError: AreaProperty.__init__() got an unexpected keyword argument 'gps_strength'") ∧
    load_area_properties [] = .ok [] := by
  refine ⟨rfl, fun e rest => rfl, rfl⟩

/-- Zone.apply_gps always lands in [0,1]: the last step clamps. -/
theorem apply_gps_mem_unit (z : Zone) (g : ℚ) (pos : Vec3) :
    0 ≤ z.apply_gps g pos ∧ z.apply_gps g pos ≤ 1 := by
  unfold Zone.apply_gps
  exact ⟨le_max_left _ _, max_le (by norm_num) (min_le_left _ _)⟩

/-- The zone loop keeps the gps inside [0,1] once it is there. -/
theorem apply_zones_at_gps_invariant :
    ∀ (zs : List Zone) (pos : Vec3) (w : Vec3) (g : ℚ), 0 ≤ g → g ≤ 1 →
      ∀ r, apply_zones_at zs pos w g = some r → 0 ≤ r.2 ∧ r.2 ≤ 1 := by
  intro zs
  induction zs with
  | nil =>
    intro pos w g h0 h1 r hr
    simp only [apply_zones_at, Option.some.injEq] at hr
    rw [← hr]
    exact ⟨h0, h1⟩
  | cons z rest ih =>
    intro pos w g h0 h1 r hr
    simp only [apply_zones_at] at hr
    by_cases hc : z.contains pos
    · rw [if_pos hc] at hr
      cases happ : z.apply w pos with
      | none => rw [happ] at hr; cases hr
      | some w2 =>
        rw [happ] at hr
        exact ih pos w2 (z.apply_gps g pos) (apply_gps_mem_unit z g pos).1
          (apply_gps_mem_unit z g pos).2 r hr
    · rw [if_neg hc] at hr
      exact ih pos w g h0 h1 r hr

/-- C6 (amended): apply_gps composes abs, then add, then scale, then clamps
into [0,1]; every cell to which at least one zone applied therefore ends
with gps in [0,1] (untouched cells keep the unclamped base value, see the
counterexample); base 0.8 with gps_add 0.5 and gps_scale 0.5 yields 0.65. -/
theorem C6_gps_composition :
    (∀ (z : Zone) (g : ℚ) (pos : Vec3),
      0 ≤ z.apply_gps g pos ∧ z.apply_gps g pos ≤ 1) ∧
    (∀ (z : Zone) (a b s g : ℚ) (pos : Vec3),
      z.effect.gps_abs = some a → z.effect.gps_add = some b →
      z.effect.gps_scale = some s →
      z.apply_gps g pos = max 0 (min 1 ((a + b) * s))) ∧
    (∀ (zs : List Zone) (pos w : Vec3) (g : ℚ),
      (∃ z ∈ zs, z.contains pos = true) →
      ∀ r, apply_zones_at zs pos w g = some r → 0 ≤ r.2 ∧ r.2 ≤ 1) ∧
    zone6.apply_gps (mkRat 4 5) (0, 0, 0) = mkRat 13 20 := by
  refine ⟨apply_gps_mem_unit, ?_, ?_, by decide⟩
  · intro z a b s g pos habs hadd hscale
    unfold Zone.apply_gps
    rw [habs, hadd, hscale]
  · intro zs
    induction zs with
    | nil =>
      intro pos w g hex r hr
      rcases hex with ⟨z, hz, _⟩
      cases hz
    | cons z rest ih =>
      intro pos w g hex r hr
      simp only [apply_zones_at] at hr
      by_cases hc : z.contains pos
      · rw [if_pos hc] at hr
        cases happ : z.apply w pos with
        | none => rw [happ] at hr; cases hr
        | some w2 =>
          rw [happ] at hr
          exact apply_zones_at_gps_invariant rest pos w2 (z.apply_gps g pos)
            (apply_gps_mem_unit z g pos).1 (apply_gps_mem_unit z g pos).2 r hr
      · rw [if_neg hc] at hr
        rcases hex with ⟨z2, hz2, hz2c⟩
        rcases List.mem_cons.mp hz2 with he | hmem
        · rw [he] at hz2c; exact absurd hz2c hc
        · exact ih pos w g ⟨z2, hmem, hz2c⟩ r hr

/-- C6 witness: one zone (gps_add 0.5, gps_scale 0.5) applied to base 0.8
keeps the output gps inside [0,1]. -/
theorem C6_gps_composition_witness :
    0 ≤ (((1 : ℚ), (0 : ℚ), (0 : ℚ)), mkRat 13 20).2 ∧
    (((1 : ℚ), (0 : ℚ), (0 : ℚ)), mkRat 13 20).2 ≤ 1 :=
  C6_gps_composition.2.2.1 [zone6] (0, 0, 0) (1, 0, 0) (mkRat 4 5)
    ⟨zone6, by decide, by decide⟩ (((1 : ℚ), (0 : ℚ), (0 : ℚ)), mkRat 13 20)
    (by decide)

/-- C6 counterexample: a scene with base gps_strength 1.5 and no zones
compiles to a property whose gps_strength is 1.5, violating the claimed
0 <= gps_strength <= 1 for every output property. -/
theorem C6_counterexample_unclamped_base :
    (compile_scene env6).map (Option.map (fun r =>
      r.2.1.map (fun p => p.properties.gps_strength))) =
      .ok (some [mkRat 3 2]) ∧
    ¬ (mkRat 3 2 ≤ (1 : ℚ)) := by
  exact ⟨by decide, by decide⟩

/-- C5: apply_zones sorts zones by priority descending (a stable descending
sort, here witnessed by permutation plus descending pairwise order) and
composes wind effects in that order; on the scenario with base wind
[1,0,0] and zones Z1 (priority 5, Scale 2) and Z2 (priority 10, Add
[1,1,0]) covering the single cell, the output wind of area_0_0 is
[4,2,0]. -/
theorem C5_apply_zones_priority :
    (∀ zs : List Zone, List.Perm (sort_zones zs) zs) ∧
    (∀ zs : List Zone,
      (sort_zones zs).Pairwise (fun a b => b.priority ≤ a.priority)) ∧
    (compile_scene env5).map (Option.map (fun r =>
      r.2.1.map (fun p => (p.id, p.properties.wind_velocity)))) =
      .ok (some [("prop_area_0_0", ((4 : ℚ), (2 : ℚ), (0 : ℚ)))]) := by
  refine ⟨fun zs => List.perm_insertionSort _ zs, fun zs => ?_, by decide⟩
  haveI : IsTotal Zone (fun a b => b.priority ≤ a.priority) :=
    ⟨fun a b => le_total b.priority a.priority⟩
  haveI : IsTrans Zone (fun a b => b.priority ≤ a.priority) :=
    ⟨fun _ _ _ h1 h2 => le_trans h2 h1⟩
  exact List.sorted_insertionSort _ zs

/-- C7 (amended): the compiler does not validate malformed input: a
negative extent (or a negative cell size) silently yields an empty area
list, a zero cell size raises a bare ZeroDivisionError that names no field,
a zone with an unknown shape contains no point (the zone is silently
inactive), and an unknown effect mode returns the wind unchanged. -/
theorem C7_no_malformed_input_validation :
    (∀ Ex Ey Ez dx dy dz : ℚ, Ex < 0 → 0 < dx → 0 < dy →
      build_grid Ex Ey Ez dx dy dz = .ok []) ∧
    (∀ Ex Ey Ez dx dy dz : ℚ, 0 ≤ Ex → dx < 0 → dy ≠ 0 →
      build_grid Ex Ey Ez dx dy dz = .ok []) ∧
    (∀ Ex Ey Ez dy dz : ℚ,
      build_grid Ex Ey Ez 0 dy dz =
        .error "ZeroDivisionError: float floor division by zero") ∧
    (∀ (z : Zone) (pos : Vec3), (∃ s, z.shape = .other s) →
      z.contains pos = false) ∧
    (∀ (z : Zone) (w pos : Vec3), (∃ s, z.effect.mode = .other s) →
      z.apply w pos = some w) := by
  refine ⟨?_, ?_, ?_, ?_, ?_⟩
  · intro Ex Ey Ez dx dy dz hEx hdx hdy
    have h1 : ¬ dx = 0 := ne_of_gt hdx
    have h2 : ¬ dy = 0 := ne_of_gt hdy
    have hq : Ex / dx < 0 := div_neg_of_neg_of_pos hEx hdx
    have hn : (⌊Ex / dx⌋).toNat = 0 := Int.toNat_of_nonpos (Int.floor_nonpos hq.le)
    simp [build_grid, h1, h2, hn]
  · intro Ex Ey Ez dx dy dz hEx hdx hdy
    have h1 : ¬ dx = 0 := ne_of_lt hdx
    have hq : Ex / dx ≤ 0 := div_nonpos_of_nonneg_of_nonpos hEx hdx.le
    have hn : (⌊Ex / dx⌋).toNat = 0 := Int.toNat_of_nonpos (Int.floor_nonpos hq)
    simp [build_grid, h1, hdy, hn]
  · intro Ex Ey Ez dy dz
    simp [build_grid]
  · intro z pos hs
    rcases hs with ⟨s, hs⟩
    simp [Zone.contains, hs]
  · intro z w pos hm
    rcases hm with ⟨s, hm⟩
    simp [Zone.apply, hm]

/-- C7 witness: a negative x extent compiles to an empty grid without any
error. -/
theorem C7_no_malformed_input_validation_witness :
    build_grid (-5) 4 3 1 1 1 = .ok [] :=
  C7_no_malformed_input_validation.1 (-5) 4 3 1 1 1 (by decide) (by decide)
    (by decide)

/-- C7 counterexample: the claim says malformed inputs abort with an
explicit error naming the offending field; instead a negative extent
returns ok with an empty grid, an unknown zone shape contains nothing, and
an unknown effect mode leaves the wind unchanged. -/
theorem C7_counterexample_silent_malformed_inputs :
    build_grid (-7) 4 3 1 1 1 = .ok [] ∧
    zoneUnknownShape.contains (0, 0, 0) = false ∧
    zoneUnknownMode.apply (1, 2, 3) (0, 0, 0) = some (1, 2, 3) := by
  exact ⟨by decide, by decide, by decide⟩

/-- C9 (amended): in build_bvh a node becomes a leaf exactly when the
member count is at most leaf_capacity or the depth has reached max_depth;
the defaults are leaf_capacity=1 and max_depth=5 (build_bvh) while
Environment.from_files passes max_depth=7, leaf_capacity=1 - not 8. -/
theorem C9_leaf_termination_condition :
    (∀ (ι : Type) (l : List (AABB ι)) (d m c : Nat) (t : Node ι),
      build_bvh l d m c = .ok t →
      (t.isLeaf = true ↔ (l.length ≤ c ∨ m ≤ d))) ∧
    (∀ (ι : Type) (l : List (AABB ι)), build_bvh_defaults l = build_bvh l 0 5 1) ∧
    from_files_max_depth = 7 ∧ from_files_leaf_capacity = 1 := by
  refine ⟨?_, fun ι l => rfl, rfl, rfl⟩
  intro ι l d m c t ht
  unfold build_bvh at ht
  cases l with
  | nil => simp [build_bvh_core] at ht
  | cons a rest =>
    simp only [build_bvh_core, List.length_cons] at ht
    by_cases hcond : rest.length + 1 ≤ c ∨ m ≤ d
    · rw [if_pos hcond] at ht
      cases ht
      simpa [Node.isLeaf] using hcond
    · rw [if_neg hcond] at ht
      split at ht
      · cases ht
      · split at ht
        · cases ht
        · cases ht
          simpa [Node.isLeaf] using hcond

/-- C9 witness: a single box builds (with the real defaults) into a leaf,
since 1 <= leaf_capacity. -/
theorem C9_leaf_termination_condition_witness : c9wTree.isLeaf = true :=
  (C9_leaf_termination_condition.1 Int c9wBoxes 0 5 1 c9wTree (by decide)).mpr
    (Or.inl (by decide))

set_option maxRecDepth 10000 in
/-- C9 counterexample: with the actual build_bvh defaults the 33-box input
produces a leaf holding 2 members at depth 5; were the default max_depth 8
as claimed, every leaf would be a singleton (as the max_depth=8 build
shows). -/
theorem C9_counterexample_default_max_depth :
    (build_bvh_defaults dupBoxes33).map
      (fun t => decide ((2, 5) ∈ leaf_size_depths t 0)) = .ok true ∧
    (build_bvh dupBoxes33 0 8 1).map
      (fun t => (leaf_size_depths t 0).all (fun p => decide (p.1 ≤ 1))) =
      .ok true := by
  exact ⟨by decide, by decide⟩

/-- Unfold point_in_aabb into the six comparisons. -/
theorem point_in_aabb_iff (b : Box) (x y z : ℚ) :
    point_in_aabb b x y z = true ↔
      (b.minx ≤ x ∧ x < b.maxx ∧ b.miny ≤ y ∧ y < b.maxy ∧
       b.minz ≤ z ∧ z < b.maxz) := by
  simp [point_in_aabb, and_assoc]

/-- Folding min never rises above the initial value. -/
theorem foldl_min_le_init {α : Type} (f : α → ℚ) :
    ∀ (l : List α) (init : ℚ),
      l.foldl (fun m b => min m (f b)) init ≤ init := by
  intro l
  induction l with
  | nil => intro init; exact le_refl _
  | cons b t ih =>
    intro init
    exact le_trans (ih (min init (f b))) (min_le_left _ _)

/-- Folding min stays below every listed key. -/
theorem foldl_min_le_mem {α : Type} (f : α → ℚ) :
    ∀ (l : List α) (init : ℚ) (x : α), x ∈ l →
      l.foldl (fun m b => min m (f b)) init ≤ f x := by
  intro l
  induction l with
  | nil => intro init x hx; cases hx
  | cons b t ih =>
    intro init x hx
    rcases List.mem_cons.mp hx with he | hm
    · rw [he]
      exact le_trans (foldl_min_le_init f t (min init (f b))) (min_le_right _ _)
    · exact ih (min init (f b)) x hm

/-- Folding max never falls below the initial value. -/
theorem init_le_foldl_max {α : Type} (f : α → ℚ) :
    ∀ (l : List α) (init : ℚ),
      init ≤ l.foldl (fun m b => max m (f b)) init := by
  intro l
  induction l with
  | nil => intro init; exact le_refl _
  | cons b t ih =>
    intro init
    exact le_trans (le_max_left _ _) (ih (max init (f b)))

/-- Folding max dominates every listed key. -/
theorem mem_le_foldl_max {α : Type} (f : α → ℚ) :
    ∀ (l : List α) (init : ℚ) (x : α), x ∈ l →
      f x ≤ l.foldl (fun m b => max m (f b)) init := by
  intro l
  induction l with
  | nil => intro init x hx; cases hx
  | cons b t ih =>
    intro init x hx
    rcases List.mem_cons.mp hx with he | hm
    · rw [he]
      exact le_trans (le_max_right _ _) (init_le_foldl_max f t (max init (f b)))
    · exact ih (max init (f b)) x hm

/-- minOver bounds each member key from below. -/
theorem minOver_le {α : Type} (f : α → ℚ) (a : α) (rest : List α) (x : α)
    (hx : x ∈ a :: rest) : minOver f a rest ≤ f x := by
  rcases List.mem_cons.mp hx with he | hm
  · rw [he]; exact foldl_min_le_init f rest (f a)
  · exact foldl_min_le_mem f rest (f a) x hm

/-- maxOver dominates each member key. -/
theorem le_maxOver {α : Type} (f : α → ℚ) (a : α) (rest : List α) (x : α)
    (hx : x ∈ a :: rest) : f x ≤ maxOver f a rest := by
  rcases List.mem_cons.mp hx with he | hm
  · rw [he]; exact init_le_foldl_max f rest (f a)
  · exact mem_le_foldl_max f rest (f a) x hm

/-- Half-open membership is monotone under box inclusion. -/
theorem point_in_of_subset {b outer : Box} {x y z : ℚ}
    (hsub : box_subset b outer) (h : point_in_aabb b x y z = true) :
    point_in_aabb outer x y z = true := by
  rw [point_in_aabb_iff] at h ⊢
  obtain ⟨s1, s2, s3, s4, s5, s6⟩ := hsub
  obtain ⟨h1, h2, h3, h4, h5, h6⟩ := h
  exact ⟨le_trans s1 h1, lt_of_lt_of_le h2 s2, le_trans s3 h3,
    lt_of_lt_of_le h4 s4, le_trans s5 h5, lt_of_lt_of_le h6 s6⟩

/-- The left input of merge_aabb is inside the merge. -/
theorem merge_subset_left (a b : Box) : box_subset a (merge_aabb a b) :=
  ⟨min_le_left _ _, le_max_left _ _, min_le_left _ _, le_max_left _ _,
   min_le_left _ _, le_max_left _ _⟩

/-- The right input of merge_aabb is inside the merge. -/
theorem merge_subset_right (a b : Box) : box_subset b (merge_aabb a b) :=
  ⟨min_le_right _ _, le_max_right _ _, min_le_right _ _, le_max_right _ _,
   min_le_right _ _, le_max_right _ _⟩

/-- Box inclusion is transitive. -/
theorem box_subset_trans {a b c : Box} (h1 : box_subset a b)
    (h2 : box_subset b c) : box_subset a c := by
  obtain ⟨p1, p2, p3, p4, p5, p6⟩ := h1
  obtain ⟨q1, q2, q3, q4, q5, q6⟩ := h2
  exact ⟨le_trans q1 p1, le_trans p2 q2, le_trans q3 p3, le_trans p4 q4,
    le_trans q5 p5, le_trans p6 q6⟩

/-- A strictly interior point passes the half-open test. -/
theorem point_in_of_strict {ι : Type} {a : AABB ι} {x y z : ℚ}
    (h : strictly_interior a x y z) : point_in_aabb a.toBox x y z = true := by
  rw [point_in_aabb_iff]
  obtain ⟨h1, h2, h3, h4, h5, h6⟩ := h
  exact ⟨h1.le, h2, h3.le, h4, h5.le, h6⟩

/-- disjoint_interiors is symmetric. -/
theorem disjoint_interiors_symm {ι : Type} {a b : AABB ι}
    (h : disjoint_interiors a b) : disjoint_interiors b a := by
  rcases h with h | h | h <;>
    [exact Or.inl (by tauto); exact Or.inr (Or.inl (by tauto));
     exact Or.inr (Or.inr (by tauto))]

/-- A box containing a point half-openly cannot have interiors disjoint
from a box holding the point strictly inside. -/
theorem not_disjoint_of_hit {ι : Type} {c a : AABB ι} {x y z : ℚ}
    (hc : point_in_aabb c.toBox x y z = true)
    (ha : strictly_interior a x y z) : ¬ disjoint_interiors c a := by
  rw [point_in_aabb_iff] at hc
  obtain ⟨c1, c2, c3, c4, c5, c6⟩ := hc
  obtain ⟨a1, a2, a3, a4, a5, a6⟩ := ha
  intro hd
  rcases hd with h | h | h <;> rcases h with h | h | h | h <;> linarith

/-- The precise leaf scan finds a box whose id equals the id of any box
holding the point strictly inside, provided the members have pairwise
disjoint interiors (the first hit is then the only hit). -/
theorem find_first_hit {ι : Type} :
    ∀ (l : List (AABB ι)) (a : AABB ι) (x y z : ℚ),
      l.Pairwise disjoint_interiors → a ∈ l → strictly_interior a x y z →
      ∃ b, l.find? (fun c => point_in_aabb c.toBox x y z) = some b ∧
        b.id = a.id := by
  intro l
  induction l with
  | nil => intro a x y z _ ha _; cases ha
  | cons c t ih =>
    intro a x y z hpw ha hint
    by_cases hc : point_in_aabb c.toBox x y z = true
    · refine ⟨c, List.find?_cons_of_pos _ hc, ?_⟩
      rcases List.mem_cons.mp ha with he | hm
      · rw [he]
      · exact absurd ((List.pairwise_cons.mp hpw).1 a hm)
          (not_disjoint_of_hit hc hint)
    · have hca : a ≠ c := fun he => hc (he ▸ point_in_of_strict hint)
      have hm : a ∈ t := by
        rcases List.mem_cons.mp ha with he | hm
        · exact absurd he hca
        · exact hm
      obtain ⟨b, hb1, hb2⟩ := ih a x y z (List.pairwise_cons.mp hpw).2 hm hint
      exact ⟨b, by rw [List.find?_cons_of_neg _ (by simpa using hc), hb1], hb2⟩

/-- search_point unfolded at a leaf. -/
theorem search_point_leaf {ι : Type} (bx : Box) (ids : List ι)
    (areas : List (AABB ι)) (x y z : ℚ) (found : List ι) (pr : Bool) :
    search_point (.leaf bx ids areas) x y z found pr =
      if point_in_aabb bx x y z = false then found
      else if pr && !areas.isEmpty then
        match areas.find? (fun a => point_in_aabb a.toBox x y z) with
        | some a => found ++ [a.id]
        | none => found
      else found ++ ids := rfl

/-- search_point unfolded at an inner node. -/
theorem search_point_inner {ι : Type} (bx : Box) (l r : Node ι)
    (x y z : ℚ) (found : List ι) (pr : Bool) :
    search_point (.inner bx l r) x y z found pr =
      if point_in_aabb bx x y z = false then found
      else if point_in_aabb l.box x y z && !point_in_aabb r.box x y z then
        search_point l x y z found pr
      else if point_in_aabb r.box x y z && !point_in_aabb l.box x y z then
        search_point r x y z found pr
      else if point_in_aabb l.box x y z && point_in_aabb r.box x y z then
        search_point r x y z (search_point l x y z found pr) pr
      else found := rfl

/-- search_point only ever appends to the accumulator. -/
theorem search_point_append {ι : Type} (t : Node ι) (x y z : ℚ) (pr : Bool) :
    ∀ found, search_point t x y z found pr =
      found ++ search_point t x y z [] pr := by
  induction t with
  | leaf bx ids areas =>
    intro found
    rw [search_point_leaf, search_point_leaf]
    by_cases h : point_in_aabb bx x y z = false
    · rw [if_pos h, if_pos h]; simp
    · rw [if_neg h, if_neg h]
      by_cases hp : (pr && !areas.isEmpty) = true
      · rw [if_pos hp, if_pos hp]
        cases hf : areas.find? (fun a => point_in_aabb a.toBox x y z) with
        | some a => simp
        | none => simp
      · rw [if_neg hp, if_neg hp]; simp
  | inner bx l r ihl ihr =>
    intro found
    rw [search_point_inner, search_point_inner]
    by_cases h : point_in_aabb bx x y z = false
    · rw [if_pos h, if_pos h]; simp
    · rw [if_neg h, if_neg h]
      by_cases h1 : (point_in_aabb l.box x y z && !point_in_aabb r.box x y z) = true
      · rw [if_pos h1, if_pos h1]; exact ihl found
      · rw [if_neg h1, if_neg h1]
        by_cases h2 : (point_in_aabb r.box x y z && !point_in_aabb l.box x y z) = true
        · rw [if_pos h2, if_pos h2]; exact ihr found
        · rw [if_neg h2, if_neg h2]
          by_cases h3 : (point_in_aabb l.box x y z && point_in_aabb r.box x y z) = true
          · rw [if_pos h3, if_pos h3, ihr (search_point l x y z found pr),
              ihl found, ihr (search_point l x y z [] pr), List.append_assoc]
          · rw [if_neg h3, if_neg h3]; simp

/-- The leaf members of a built tree are a permutation of the input list. -/
theorem build_bvh_core_perm {ι : Type} :
    ∀ (fuel : Nat) (l : List (AABB ι)) (d m c : Nat) (t : Node ι),
      build_bvh_core fuel l d m c = .ok t → List.Perm (node_areas t) l := by
  intro fuel
  induction fuel with
  | zero =>
    intro l d m c t ht
    cases l with
    | nil => cases ht
    | cons a rest =>
      simp only [build_bvh_core] at ht
      by_cases hcond : (a :: rest).length ≤ c ∨ m ≤ d
      · rw [if_pos hcond] at ht
        cases ht
        exact List.Perm.refl _
      · rw [if_neg hcond] at ht
        cases ht
  | succ fuel ih =>
    intro l d m c t ht
    cases l with
    | nil => cases ht
    | cons a rest =>
      simp only [build_bvh_core] at ht
      by_cases hcond : (a :: rest).length ≤ c ∨ m ≤ d
      · rw [if_pos hcond] at ht
        cases ht
        exact List.Perm.refl _
      · rw [if_neg hcond] at ht
        split at ht
        · cases ht
        · rename_i left h1
          split at ht
          · cases ht
          · rename_i right h2
            cases ht
            have pl := ih _ _ _ _ _ h1
            have pr := ih _ _ _ _ _ h2
            have h3 := pl.append pr
            rw [List.take_append_drop] at h3
            exact h3.trans (List.perm_insertionSort _ _)

/-- Every leaf member of a built tree lies inside the root box. -/
theorem build_bvh_core_bound {ι : Type} :
    ∀ (fuel : Nat) (l : List (AABB ι)) (d m c : Nat) (t : Node ι),
      build_bvh_core fuel l d m c = .ok t →
      ∀ b ∈ node_areas t, box_subset b.toBox t.box := by
  intro fuel
  induction fuel with
  | zero =>
    intro l d m c t ht
    cases l with
    | nil => cases ht
    | cons a rest =>
      simp only [build_bvh_core] at ht
      by_cases hcond : (a :: rest).length ≤ c ∨ m ≤ d
      · rw [if_pos hcond] at ht
        cases ht
        intro b hb
        exact ⟨minOver_le _ a rest b hb, le_maxOver _ a rest b hb,
          minOver_le _ a rest b hb, le_maxOver _ a rest b hb,
          minOver_le _ a rest b hb, le_maxOver _ a rest b hb⟩
      · rw [if_neg hcond] at ht
        cases ht
  | succ fuel ih =>
    intro l d m c t ht
    cases l with
    | nil => cases ht
    | cons a rest =>
      simp only [build_bvh_core] at ht
      by_cases hcond : (a :: rest).length ≤ c ∨ m ≤ d
      · rw [if_pos hcond] at ht
        cases ht
        intro b hb
        exact ⟨minOver_le _ a rest b hb, le_maxOver _ a rest b hb,
          minOver_le _ a rest b hb, le_maxOver _ a rest b hb,
          minOver_le _ a rest b hb, le_maxOver _ a rest b hb⟩
      · rw [if_neg hcond] at ht
        split at ht
        · cases ht
        · rename_i left h1
          split at ht
          · cases ht
          · rename_i right h2
            cases ht
            intro b hb
            rcases List.mem_append.mp hb with hbl | hbr
            · exact box_subset_trans (ih _ _ _ _ _ h1 b hbl)
                (merge_subset_left _ _)
            · exact box_subset_trans (ih _ _ _ _ _ h2 b hbr)
                (merge_subset_right _ _)

/-- Precise search at a leaf returns the id of the uniquely hit member. -/
theorem leaf_complete {ι : Type} (l : List (AABB ι)) (bx : Box) (x y z : ℚ)
    (a : AABB ι) (hin : point_in_aabb bx x y z = true)
    (hpw : l.Pairwise disjoint_interiors) (ha : a ∈ l)
    (hint : strictly_interior a x y z) (ids : List ι) :
    ∀ found, a.id ∈ search_point (.leaf bx ids l) x y z found true := by
  intro found
  obtain ⟨b, hb1, hb2⟩ := find_first_hit l a x y z hpw ha hint
  rw [search_point_leaf, if_neg (by simp [hin])]
  have hne : l.isEmpty = false := by
    cases l with
    | nil => cases ha
    | cons h t => rfl
  rw [if_pos (by simp [hne]), hb1]
  simp [hb2]

/-- Completeness of precise BVH search over a built tree, for inputs with
pairwise disjoint interiors: the id of any member box holding the point
strictly inside is returned (whatever the accumulator). -/
theorem search_point_complete_core {ι : Type} :
    ∀ (fuel : Nat) (l : List (AABB ι)) (d m c : Nat) (t : Node ι)
      (x y z : ℚ) (a : AABB ι),
      build_bvh_core fuel l d m c = .ok t →
      l.Pairwise disjoint_interiors →
      a ∈ l → strictly_interior a x y z →
      ∀ found, a.id ∈ search_point t x y z found true := by
  intro fuel
  induction fuel with
  | zero =>
    intro l d m c t x y z a ht hpw ha hint
    cases l with
    | nil => cases ht
    | cons a0 rest =>
      simp only [build_bvh_core] at ht
      by_cases hcond : (a0 :: rest).length ≤ c ∨ m ≤ d
      · rw [if_pos hcond] at ht
        cases ht
        have hin : point_in_aabb
            (Node.box (ι := ι) (.leaf
              ⟨minOver (fun b => b.minx) a0 rest, minOver (fun b => b.miny) a0 rest,
               minOver (fun b => b.minz) a0 rest, maxOver (fun b => b.maxx) a0 rest,
               maxOver (fun b => b.maxy) a0 rest, maxOver (fun b => b.maxz) a0 rest⟩
              ((a0 :: rest).map (fun b => b.id)) (a0 :: rest))) x y z = true :=
          point_in_of_subset
            (⟨minOver_le _ a0 rest a ha, le_maxOver _ a0 rest a ha,
              minOver_le _ a0 rest a ha, le_maxOver _ a0 rest a ha,
              minOver_le _ a0 rest a ha, le_maxOver _ a0 rest a ha⟩)
            (point_in_of_strict hint)
        exact leaf_complete (a0 :: rest) _ x y z a hin hpw ha hint _
      · rw [if_neg hcond] at ht
        cases ht
  | succ fuel ih =>
    intro l d m c t x y z a ht hpw ha hint
    cases l with
    | nil => cases ht
    | cons a0 rest =>
      simp only [build_bvh_core] at ht
      by_cases hcond : (a0 :: rest).length ≤ c ∨ m ≤ d
      · rw [if_pos hcond] at ht
        cases ht
        have hin : point_in_aabb
            (Node.box (ι := ι) (.leaf
              ⟨minOver (fun b => b.minx) a0 rest, minOver (fun b => b.miny) a0 rest,
               minOver (fun b => b.minz) a0 rest, maxOver (fun b => b.maxx) a0 rest,
               maxOver (fun b => b.maxy) a0 rest, maxOver (fun b => b.maxz) a0 rest⟩
              ((a0 :: rest).map (fun b => b.id)) (a0 :: rest))) x y z = true :=
          point_in_of_subset
            (⟨minOver_le _ a0 rest a ha, le_maxOver _ a0 rest a ha,
              minOver_le _ a0 rest a ha, le_maxOver _ a0 rest a ha,
              minOver_le _ a0 rest a ha, le_maxOver _ a0 rest a ha⟩)
            (point_in_of_strict hint)
        exact leaf_complete (a0 :: rest) _ x y z a hin hpw ha hint _
      · rw [if_neg hcond] at ht
        split at ht
        · cases ht
        · rename_i left h1
          split at ht
          · cases ht
          · rename_i right h2
            cases ht
            intro found
            have hperm := List.perm_insertionSort
              (fun p q => axisKey (chooseAxis a0 rest) p ≤
                axisKey (chooseAxis a0 rest) q) (a0 :: rest)
            have hpw2 : (List.insertionSort
                (fun p q => axisKey (chooseAxis a0 rest) p ≤
                  axisKey (chooseAxis a0 rest) q) (a0 :: rest)).Pairwise
                  disjoint_interiors :=
              (hperm.pairwise_iff disjoint_interiors_symm).mpr hpw
            have ha2 := hperm.mem_iff.mpr ha
            rw [← List.take_append_drop
              ((List.insertionSort (fun p q => axisKey (chooseAxis a0 rest) p ≤
                axisKey (chooseAxis a0 rest) q) (a0 :: rest)).length / 2)
              (List.insertionSort (fun p q => axisKey (chooseAxis a0 rest) p ≤
                axisKey (chooseAxis a0 rest) q) (a0 :: rest))] at hpw2 ha2
    
            rcases List.pairwise_append.mp hpw2 with ⟨pwT, pwD, _⟩
            rcases List.mem_append.mp ha2 with haT | haD
            · -- a lies in the left half
              have hmemL : a ∈ node_areas left :=
                (build_bvh_core_perm _ _ _ _ _ _ h1).mem_iff.mpr haT
              have hpl : point_in_aabb left.box x y z = true :=
                point_in_of_subset (build_bvh_core_bound _ _ _ _ _ _ h1 a hmemL)
                  (point_in_of_strict hint)
              have hpt : point_in_aabb (merge_aabb left.box right.box) x y z = true :=
                point_in_of_subset (merge_subset_left _ _) hpl
              rw [search_point_inner, if_neg (by simp [hpt])]
              by_cases hr : point_in_aabb right.box x y z = true
              · rw [if_neg (by simp [hpl, hr]), if_neg (by simp [hpl, hr]),
                  if_pos (by simp [hpl, hr]),
                  search_point_append right x y z true
                    (search_point left x y z found true)]
                exact List.mem_append.mpr
                  (Or.inl (ih _ _ _ _ _ x y z a h1 pwT haT hint found))
              · rw [if_pos (by simp [hpl, Bool.eq_false_iff.mpr hr])]
                exact ih _ _ _ _ _ x y z a h1 pwT haT hint found
            · -- a lies in the right half
              have hmemR : a ∈ node_areas right :=
                (build_bvh_core_perm _ _ _ _ _ _ h2).mem_iff.mpr haD
              have hpr : point_in_aabb right.box x y z = true :=
                point_in_of_subset (build_bvh_core_bound _ _ _ _ _ _ h2 a hmemR)
                  (point_in_of_strict hint)
              have hpt : point_in_aabb (merge_aabb left.box right.box) x y z = true :=
                point_in_of_subset (merge_subset_right _ _) hpr
              rw [search_point_inner, if_neg (by simp [hpt])]
              by_cases hl : point_in_aabb left.box x y z = true
              · rw [if_neg (by simp [hl, hpr]), if_neg (by simp [hl, hpr]),
                  if_pos (by simp [hl, hpr])]
                exact ih _ _ _ _ _ x y z a h2 pwD haD hint _
              · rw [if_neg (by simp [Bool.eq_false_iff.mpr hl]),
                  if_pos (by simp [hpr, Bool.eq_false_iff.mpr hl])]
                exact ih _ _ _ _ _ x y z a h2 pwD haD hint found

/-- Soundness of precise BVH search over a built tree: every returned id
beyond the accumulator is the id of some input box containing the point
half-openly. -/
theorem search_point_sound_core {ι : Type} :
    ∀ (fuel : Nat) (l : List (AABB ι)) (d m c : Nat) (t : Node ι) (x y z : ℚ),
      build_bvh_core fuel l d m c = .ok t →
      ∀ (found : List ι) (i : ι), i ∈ search_point t x y z found true →
      i ∈ found ∨ ∃ b, b ∈ l ∧ point_in_aabb b.toBox x y z = true ∧ b.id = i := by
  intro fuel
  induction fuel with
  | zero =>
    intro l d m c t x y z ht found i hi
    cases l with
    | nil => cases ht
    | cons a0 rest =>
      simp only [build_bvh_core] at ht
      by_cases hcond : (a0 :: rest).length ≤ c ∨ m ≤ d
      · rw [if_pos hcond] at ht
        cases ht
        rw [search_point_leaf] at hi
        by_cases h : point_in_aabb
            ⟨minOver (fun b => b.minx) a0 rest, minOver (fun b => b.miny) a0 rest,
             minOver (fun b => b.minz) a0 rest, maxOver (fun b => b.maxx) a0 rest,
             maxOver (fun b => b.maxy) a0 rest, maxOver (fun b => b.maxz) a0 rest⟩
            x y z = false
        · rw [if_pos h] at hi; exact Or.inl hi
        · rw [if_neg h, if_pos (by simp [List.isEmpty])] at hi
          cases hf : (a0 :: rest).find? (fun a => point_in_aabb a.toBox x y z) with
          | some b =>
            rw [hf] at hi
            rcases List.mem_append.mp hi with hif | hib
            · exact Or.inl hif
            · refine Or.inr ⟨b, List.mem_of_find?_eq_some hf, ?_,
                (List.mem_singleton.mp hib).symm⟩
              have := List.find?_some hf
              simpa using this
          | none => rw [hf] at hi; exact Or.inl hi
      · rw [if_neg hcond] at ht
        cases ht
  | succ fuel ih =>
    intro l d m c t x y z ht found i hi
    cases l with
    | nil => cases ht
    | cons a0 rest =>
      simp only [build_bvh_core] at ht
      by_cases hcond : (a0 :: rest).length ≤ c ∨ m ≤ d
      · rw [if_pos hcond] at ht
        cases ht
        rw [search_point_leaf] at hi
        by_cases h : point_in_aabb
            ⟨minOver (fun b => b.minx) a0 rest, minOver (fun b => b.miny) a0 rest,
             minOver (fun b => b.minz) a0 rest, maxOver (fun b => b.maxx) a0 rest,
             maxOver (fun b => b.maxy) a0 rest, maxOver (fun b => b.maxz) a0 rest⟩
            x y z = false
        · rw [if_pos h] at hi; exact Or.inl hi
        · rw [if_neg h, if_pos (by simp [List.isEmpty])] at hi
          cases hf : (a0 :: rest).find? (fun a => point_in_aabb a.toBox x y z) with
          | some b =>
            rw [hf] at hi
            rcases List.mem_append.mp hi with hif | hib
            · exact Or.inl hif
            · refine Or.inr ⟨b, List.mem_of_find?_eq_some hf, ?_,
                (List.mem_singleton.mp hib).symm⟩
              have := List.find?_some hf
              simpa using this
          | none => rw [hf] at hi; exact Or.inl hi
      · rw [if_neg hcond] at ht
        split at ht
        · cases ht
        · rename_i left h1
          split at ht
          · cases ht
          · rename_i right h2
            cases ht
            rw [search_point_inner] at hi
            have hmap : ∀ b : AABB ι,
                b ∈ (List.insertionSort
                  (fun p q => axisKey (chooseAxis a0 rest) p ≤
                    axisKey (chooseAxis a0 rest) q) (a0 :: rest)) →
                b ∈ a0 :: rest := fun b hb =>
              (List.perm_insertionSort _ _).mem_iff.mp hb
            by_cases h : point_in_aabb (merge_aabb left.box right.box) x y z = false
            · rw [if_pos h] at hi; exact Or.inl hi
            · rw [if_neg h] at hi
              by_cases hc1 : (point_in_aabb left.box x y z &&
                  !point_in_aabb right.box x y z) = true
              · rw [if_pos hc1] at hi
                rcases ih _ _ _ _ _ x y z h1 found i hi with hf | ⟨b, hb, hbp, hbi⟩
                · exact Or.inl hf
                · exact Or.inr ⟨b, hmap b (List.mem_of_mem_take hb), hbp, hbi⟩
              · rw [if_neg hc1] at hi
                by_cases hc2 : (point_in_aabb right.box x y z &&
                    !point_in_aabb left.box x y z) = true
                · rw [if_pos hc2] at hi
                  rcases ih _ _ _ _ _ x y z h2 found i hi with hf | ⟨b, hb, hbp, hbi⟩
                  · exact Or.inl hf
                  · exact Or.inr ⟨b, hmap b (List.mem_of_mem_drop hb), hbp, hbi⟩
                · rw [if_neg hc2] at hi
                  by_cases hc3 : (point_in_aabb left.box x y z &&
                      point_in_aabb right.box x y z) = true
                  · rw [if_pos hc3] at hi
                    rcases ih _ _ _ _ _ x y z h2 _ i hi with hf | ⟨b, hb, hbp, hbi⟩
                    · rcases ih _ _ _ _ _ x y z h1 found i hf with
                        hf2 | ⟨b, hb, hbp, hbi⟩
                      · exact Or.inl hf2
                      · exact Or.inr ⟨b, hmap b (List.mem_of_mem_take hb), hbp, hbi⟩
                    · exact Or.inr ⟨b, hmap b (List.mem_of_mem_drop hb), hbp, hbi⟩
                  · rw [if_neg hc3] at hi
                    exact Or.inl hi

/-- C1 (amended): for input AABBs with pairwise disjoint interiors, precise
search on any successfully built BVH returns the id of every input box
holding the query point strictly inside (the dropped hypothesis is forced
by the counterexample: with overlapping inputs a multi-member leaf returns
only its first hit). -/
theorem C1_bvh_completeness {ι : Type} (l : List (AABB ι)) (a : AABB ι)
    (x y z : ℚ) (m c : Nat) (t : Node ι)
    (hdisj : l.Pairwise disjoint_interiors)
    (ha : a ∈ l) (hp : strictly_interior a x y z)
    (ht : build_bvh l 0 m c = .ok t) :
    a.id ∈ search_point t x y z [] true :=
  search_point_complete_core l.length l 0 m c t x y z a ht hdisj ha hp []

/-- C1 witness: two disjoint unit boxes; the point (3/2, 1/2, 1/2) interior
to the box with id 2 is found. -/
theorem C1_bvh_completeness_witness :
    (2 : Int) ∈ search_point c1wTree (mkRat 3 2) (mkRat 1 2) (mkRat 1 2) [] true :=
  C1_bvh_completeness c1wBoxes ⟨⟨1, 0, 0, 2, 1, 1⟩, 2⟩ (mkRat 3 2) (mkRat 1 2)
    (mkRat 1 2) 5 1 c1wTree (by decide) (by decide) (by decide) (by decide)

set_option maxRecDepth 10000 in
/-- C1 counterexample: dupBoxes33 contains the box with id 99 (a duplicate
of the box with id 31); the point (63/2, 1/2, 1/2) is strictly interior to
it, yet the default-parameter BVH search does not return 99 - the depth-5
leaf holding both copies breaks after its first hit. -/
theorem C1_counterexample_overlapping_inputs :
    (⟨⟨31, 0, 0, 32, 1, 1⟩, (99 : Int)⟩ : AABB Int) ∈ dupBoxes33 ∧
    strictly_interior (⟨⟨31, 0, 0, 32, 1, 1⟩, (99 : Int)⟩ : AABB Int)
      (mkRat 63 2) (mkRat 1 2) (mkRat 1 2) ∧
    (build_bvh_defaults dupBoxes33).map
      (fun t => decide ((99 : Int) ∈
        search_point t (mkRat 63 2) (mkRat 1 2) (mkRat 1 2) [] true)) =
      .ok false := by
  exact ⟨by decide, by decide, by decide⟩

/-- C3: with the BVH built from the loaded areas, get_property_at returns
(none, none) whenever no loaded area contains the point half-openly; any
primary hit aid is the id of a loaded area that does contain the point; and
the result is (some aid, none) whenever that aid has no link or a link to a
missing property; the embedding is a total function, so it returns rather
than raises in every case. -/
theorem C3_get_property_at_failure_modes {π : Type} (env : Environment π)
    (m c : Nat) (x y z : ℚ)
    (hroot : build_bvh (env.areas.map (fun p => p.2)) 0 m c = .ok env.bvh_root) :
    ((∀ b ∈ env.areas.map (fun p => p.2), point_in_aabb b.toBox x y z = false) →
      get_property_at env x y z = (none, none)) ∧
    (∀ aid, find_primary_area_at env x y z = some aid →
      ∃ b ∈ env.areas.map (fun p => p.2),
        point_in_aabb b.toBox x y z = true ∧ b.id = aid) ∧
    (∀ aid, find_primary_area_at env x y z = some aid →
      (env.links.lookup aid = none ∨
        ∃ pid, env.links.lookup aid = some pid ∧
          env.properties.lookup pid = none) →
      get_property_at env x y z = (some aid, none)) := by
  refine ⟨?_, ?_, ?_⟩
  · intro hmiss
    have hempty : find_area_ids_at env x y z = [] := by
      cases hh : find_area_ids_at env x y z with
      | nil => rfl
      | cons i rest =>
        exfalso
        have hi : i ∈ search_point env.bvh_root x y z [] true := by
          rw [show search_point env.bvh_root x y z [] true =
            find_area_ids_at env x y z from rfl, hh]
          exact List.mem_cons_self _ _
        have hroot2 : build_bvh_core (env.areas.map (fun p => p.2)).length
            (env.areas.map (fun p => p.2)) 0 m c = .ok env.bvh_root := hroot
        rcases search_point_sound_core (env.areas.map (fun p => p.2)).length
            (env.areas.map (fun p => p.2)) 0 m c env.bvh_root x y z hroot2 [] i hi with
          hf | ⟨b, hb, hbp, _⟩
        · cases hf
        · rw [hmiss b hb] at hbp
          cases hbp
    unfold get_property_at find_primary_area_at
    rw [hempty]
    rfl
  · intro aid hprim
    have hroot2 : build_bvh_core (env.areas.map (fun p => p.2)).length
        (env.areas.map (fun p => p.2)) 0 m c = .ok env.bvh_root := hroot
    unfold find_primary_area_at at hprim
    cases hh : find_area_ids_at env x y z with
    | nil => rw [hh] at hprim; cases hprim
    | cons i rest =>
      rw [hh] at hprim
      have hai : i = aid := by
        simpa using hprim
      have hi : i ∈ search_point env.bvh_root x y z [] true := by
        rw [show search_point env.bvh_root x y z [] true =
          find_area_ids_at env x y z from rfl, hh]
        exact List.mem_cons_self _ _
      rcases search_point_sound_core (env.areas.map (fun p => p.2)).length
          (env.areas.map (fun p => p.2)) 0 m c env.bvh_root x y z hroot2 [] i hi with
        hf | ⟨b, hb, hbp, hbi⟩
      · cases hf
      · exact ⟨b, hb, hbp, by rw [hbi, hai]⟩
  · intro aid hprim hnone
    have hnoneprop : get_property_for_area env aid = none := by
      unfold get_property_for_area
      rcases hnone with h | ⟨pid, h1, h2⟩
      · rw [h]
      · rw [h1]
        show List.lookup pid env.properties = none
        exact h2
    unfold get_property_at
    rw [hprim]
    show (some aid, get_property_for_area env aid) = (some aid, none)
    rw [hnoneprop]

/-- C3 witness: the spec example scene - one unit area, no links, no
properties; the outside point (3,3,3) is mapped to (none, none). -/
theorem C3_get_property_at_failure_modes_witness :
    get_property_at env3 3 3 3 = (none, none) :=
  (C3_get_property_at_failure_modes env3 5 1 3 3 3 (by decide)).1 (by decide)

/-- Length of a row-major grid enumeration. -/
theorem length_flatMap_const {β : Type} (f : ℕ → List β) (k : ℕ) :
    ∀ n : ℕ, (∀ i, (f i).length = k) →
      ((List.range n).flatMap f).length = n * k := by
  intro n hf
  induction n with
  | zero => simp
  | succ n ih =>
    rw [List.range_succ, List.flatMap_append]
    simp [ih, hf, Nat.succ_mul]

/-- Pairwise property of a row-major grid enumeration, given that any two
cells with different indices are related. -/
theorem pairwise_grid_cells {α : Type} (R : α → α → Prop) (f : ℕ → ℕ → α)
    (m : ℕ)
    (hR : ∀ iy ix iy2 ix2 : ℕ, (iy ≠ iy2 ∨ ix ≠ ix2) →
      R (f iy ix) (f iy2 ix2)) :
    ∀ n : ℕ,
      List.Pairwise R ((List.range n).flatMap (fun iy =>
        (List.range m).map (f iy))) := by
  intro n
  induction n with
  | zero => simp
  | succ n ih =>
    rw [List.range_succ, List.flatMap_append]
    rw [List.pairwise_append]
    refine ⟨ih, ?_, ?_⟩
    · simp only [List.flatMap_cons, List.flatMap_nil, List.append_nil]
      rw [List.pairwise_map]
      exact (List.pairwise_lt_range m).imp
        (fun {a b} hab => hR n a n b (Or.inr (Nat.ne_of_lt hab)))
    · intro a ha b hb
      rcases List.mem_flatMap.mp ha with ⟨iy, hiy, hmem⟩
      rcases List.mem_map.mp hmem with ⟨ix, _, rfl⟩
      simp only [List.flatMap_cons, List.flatMap_nil, List.append_nil] at hb
      rcases List.mem_map.mp hb with ⟨ix2, _, rfl⟩
      exact hR iy ix n ix2 (Or.inl (Nat.ne_of_lt (List.mem_range.mp hiy)))

/-- Two grid cells with different indices have disjoint interiors. -/
theorem gridCell_disjoint (dx dy Ez : ℚ) (hdx : 0 < dx) (hdy : 0 < dy)
    (iy ix iy2 ix2 : ℕ) (hne : iy ≠ iy2 ∨ ix ≠ ix2) :
    disjoint_interiors (gridCell dx dy Ez iy ix) (gridCell dx dy Ez iy2 ix2) := by
  rcases hne with hy | hx
  · rcases Nat.lt_or_ge iy iy2 with h | h
    · refine Or.inr (Or.inl (Or.inl ?_))
      show ((iy : ℚ) + 1) * dy ≤ (iy2 : ℚ) * dy
      have hle : (iy : ℚ) + 1 ≤ (iy2 : ℚ) := by exact_mod_cast h
      exact mul_le_mul_of_nonneg_right hle hdy.le
    · have h2 : iy2 < iy := Nat.lt_of_le_of_ne h (fun he => hy he.symm)
      refine Or.inr (Or.inl (Or.inr (Or.inl ?_)))
      show ((iy2 : ℚ) + 1) * dy ≤ (iy : ℚ) * dy
      have hle : (iy2 : ℚ) + 1 ≤ (iy : ℚ) := by exact_mod_cast h2
      exact mul_le_mul_of_nonneg_right hle hdy.le
  · rcases Nat.lt_or_ge ix ix2 with h | h
    · refine Or.inl (Or.inl ?_)
      show ((ix : ℚ) + 1) * dx ≤ (ix2 : ℚ) * dx
      have hle : (ix : ℚ) + 1 ≤ (ix2 : ℚ) := by exact_mod_cast h
      exact mul_le_mul_of_nonneg_right hle hdx.le
    · have h2 : ix2 < ix := Nat.lt_of_le_of_ne h (fun he => hx he.symm)
      refine Or.inl (Or.inr (Or.inl ?_))
      show ((ix2 : ℚ) + 1) * dx ≤ (ix : ℚ) * dx
      have hle : (ix2 : ℚ) + 1 ≤ (ix : ℚ) := by exact_mod_cast h2
      exact mul_le_mul_of_nonneg_right hle hdx.le

/-- On one axis: any value in [0, floor(E/dv)*dv] lies in some cell
[j*dv, (j+1)*dv] with j < floor(E/dv). -/
theorem cell_index_exists (v dv E : ℚ) (hdv : 0 < dv) (hE : dv ≤ E)
    (h0 : 0 ≤ v) (hvn : v ≤ ((⌊E / dv⌋ : ℤ) : ℚ) * dv) :
    ∃ j : ℕ, j < (⌊E / dv⌋).toNat ∧
      (j : ℚ) * dv ≤ v ∧ v ≤ ((j : ℚ) + 1) * dv := by
  have hn1 : 1 ≤ ⌊E / dv⌋ := by
    rw [Int.le_floor]
    push_cast
    exact (one_le_div hdv).mpr hE
  have hfx0 : 0 ≤ ⌊v / dv⌋ := Int.floor_nonneg.mpr (div_nonneg h0 hdv.le)
  have hj0 : 0 ≤ min ⌊v / dv⌋ (⌊E / dv⌋ - 1) := le_min hfx0 (by omega)
  have hjlt : min ⌊v / dv⌋ (⌊E / dv⌋ - 1) < ⌊E / dv⌋ :=
    lt_of_le_of_lt (min_le_right _ _) (by omega)
  have hc : (((min ⌊v / dv⌋ (⌊E / dv⌋ - 1)).toNat : ℕ) : ℚ) =
      ((min ⌊v / dv⌋ (⌊E / dv⌋ - 1) : ℤ) : ℚ) := by
    exact_mod_cast Int.toNat_of_nonneg hj0
  refine ⟨(min ⌊v / dv⌋ (⌊E / dv⌋ - 1)).toNat, by omega, ?_, ?_⟩
  · rw [hc]
    have h1 : ((min ⌊v / dv⌋ (⌊E / dv⌋ - 1) : ℤ) : ℚ) ≤ ((⌊v / dv⌋ : ℤ) : ℚ) := by
      exact_mod_cast min_le_left _ _
    have h2 : ((⌊v / dv⌋ : ℤ) : ℚ) ≤ v / dv := Int.floor_le _
    exact (le_div_iff₀ hdv).mp (le_trans h1 h2)
  · rw [hc]
    by_cases hcase : ⌊v / dv⌋ ≤ ⌊E / dv⌋ - 1
    · rw [min_eq_left hcase]
      have h3 : v / dv < ((⌊v / dv⌋ : ℤ) : ℚ) + 1 := Int.lt_floor_add_one _
      exact ((div_lt_iff₀ hdv).mp h3).le
    · rw [min_eq_right (by omega)]
      push_cast
      calc v ≤ ((⌊E / dv⌋ : ℤ) : ℚ) * dv := hvn
        _ = (((⌊E / dv⌋ : ℤ) : ℚ) - 1 + 1) * dv := by ring

/-- C2: for positive cell sizes fitting in the extents, build_grid emits
exactly nx*ny areas (nx = floor(Ex/dx), ny = floor(Ey/dy)), each the cell
area_{iy}_{ix} spanning [ix dx,(ix+1)dx] x [iy dy,(iy+1)dy] x [0,Ez]; the
union of all emitted bounds is [0,nx dx] x [0,ny dy] x [0,Ez] and distinct
cells have disjoint interiors. -/
theorem C2_build_grid_coverage (Ex Ey Ez dx dy dz : ℚ)
    (areas : List (AABB String))
    (hdx : 0 < dx) (hdy : 0 < dy) (hEx : dx ≤ Ex) (hEy : dy ≤ Ey) (hEz : 0 ≤ Ez)
    (ht : build_grid Ex Ey Ez dx dy dz = .ok areas) :
    areas.length = (⌊Ey / dy⌋).toNat * (⌊Ex / dx⌋).toNat ∧
    (∀ a ∈ areas, ∃ iy ix : ℕ, iy < (⌊Ey / dy⌋).toNat ∧
      ix < (⌊Ex / dx⌋).toNat ∧ a = gridCell dx dy Ez iy ix) ∧
    (∀ iy ix : ℕ, iy < (⌊Ey / dy⌋).toNat → ix < (⌊Ex / dx⌋).toNat →
      gridCell dx dy Ez iy ix ∈ areas) ∧
    (∀ x y z : ℚ,
      (∃ a ∈ areas, in_closed_box a x y z) ↔
        (0 ≤ x ∧ x ≤ ((⌊Ex / dx⌋ : ℤ) : ℚ) * dx ∧ 0 ≤ y ∧
         y ≤ ((⌊Ey / dy⌋ : ℤ) : ℚ) * dy ∧ 0 ≤ z ∧ z ≤ Ez)) ∧
    areas.Pairwise disjoint_interiors := by
  have hnx1 : 1 ≤ ⌊Ex / dx⌋ := by
    rw [Int.le_floor]
    push_cast
    exact (one_le_div hdx).mpr hEx
  have hny1 : 1 ≤ ⌊Ey / dy⌋ := by
    rw [Int.le_floor]
    push_cast
    exact (one_le_div hdy).mpr hEy
  have hcastnx : (((⌊Ex / dx⌋).toNat : ℕ) : ℚ) = ((⌊Ex / dx⌋ : ℤ) : ℚ) := by
    exact_mod_cast Int.toNat_of_nonneg (by omega)
  have hcastny : (((⌊Ey / dy⌋).toNat : ℕ) : ℚ) = ((⌊Ey / dy⌋ : ℤ) : ℚ) := by
    exact_mod_cast Int.toNat_of_nonneg (by omega)
  unfold build_grid at ht
  rw [if_neg hdx.ne', if_neg hdy.ne'] at ht
  cases ht
  refine ⟨?_, ?_, ?_, ?_, ?_⟩
  · exact length_flatMap_const _ _ _ (fun i => by simp)
  · intro a ha
    rcases List.mem_flatMap.mp ha with ⟨iy, hiy, hmem⟩
    rcases List.mem_map.mp hmem with ⟨ix, hix, heq⟩
    exact ⟨iy, ix, List.mem_range.mp hiy, List.mem_range.mp hix,
      by rw [← heq]; rfl⟩
  · intro iy ix hiy hix
    exact List.mem_flatMap.mpr ⟨iy, List.mem_range.mpr hiy,
      List.mem_map.mpr ⟨ix, List.mem_range.mpr hix, rfl⟩⟩
  · intro x y z
    constructor
    · rintro ⟨a, ha, hbox⟩
      rcases List.mem_flatMap.mp ha with ⟨iy, hiy, hmem⟩
      rcases List.mem_map.mp hmem with ⟨ix, hix, heq⟩
      rw [← heq] at hbox
      obtain ⟨h1, h2, h3, h4, h5, h6⟩ := hbox
      have hixq : (ix : ℚ) + 1 ≤ ((⌊Ex / dx⌋ : ℤ) : ℚ) := by
        rw [← hcastnx]
        exact_mod_cast Nat.succ_le_of_lt (List.mem_range.mp hix)
      have hiyq : (iy : ℚ) + 1 ≤ ((⌊Ey / dy⌋ : ℤ) : ℚ) := by
        rw [← hcastny]
        exact_mod_cast Nat.succ_le_of_lt (List.mem_range.mp hiy)
      refine ⟨le_trans (mul_nonneg (by positivity) hdx.le) h1,
        le_trans h2 (mul_le_mul_of_nonneg_right hixq hdx.le),
        le_trans (mul_nonneg (by positivity) hdy.le) h3,
        le_trans h4 (mul_le_mul_of_nonneg_right hiyq hdy.le), h5, h6⟩
    · rintro ⟨hx0, hxn, hy0, hyn, hz0, hzn⟩
      obtain ⟨jx, hjx, hjx1, hjx2⟩ := cell_index_exists x dx Ex hdx hEx hx0 hxn
      obtain ⟨jy, hjy, hjy1, hjy2⟩ := cell_index_exists y dy Ey hdy hEy hy0 hyn
      refine ⟨gridCell dx dy Ez jy jx, ?_, ?_⟩
      · exact List.mem_flatMap.mpr ⟨jy, List.mem_range.mpr hjy,
          List.mem_map.mpr ⟨jx, List.mem_range.mpr hjx, rfl⟩⟩
      · exact ⟨hjx1, hjx2, hjy1, hjy2, hz0, hzn⟩
  · exact pairwise_grid_cells disjoint_interiors (gridCell dx dy Ez)
      (⌊Ex / dx⌋).toNat
      (fun iy ix iy2 ix2 hne => gridCell_disjoint dx dy Ez hdx hdy iy ix iy2 ix2 hne)
      (⌊Ey / dy⌋).toNat

/-- C2 witness: a 2x1 grid (Ex=2, Ey=1, Ez=1, unit cells) has exactly
ny*nx = 2 areas. -/
theorem C2_build_grid_coverage_witness :
    ([⟨⟨0, 0, 0, 1, 1, 1⟩, "area_0_0"⟩,
      ⟨⟨1, 0, 0, 2, 1, 1⟩, "area_0_1"⟩] : List (AABB String)).length =
      (⌊(1 : ℚ) / 1⌋).toNat * (⌊(2 : ℚ) / 1⌋).toNat :=
  (C2_build_grid_coverage 2 1 1 1 1 1
    [⟨⟨0, 0, 0, 1, 1, 1⟩, "area_0_0"⟩, ⟨⟨1, 0, 0, 2, 1, 1⟩, "area_0_1"⟩]
    (by decide) (by decide) (by decide) (by decide) (by decide) (by decide)).1
